import Mathlib

/- Shallow embedding of the aps-events-generator repository: the rendering
pipeline of `svg_generator.py`, the date inference and digest builder of
`generate.py`, and the batch validation of `validators.py`.  Coordinates are
modelled exactly as rationals (Python floats stay exact here: every value is a
finite sum of multiples of 1.2 within double precision range used for layout). -/

/-! ### Python string primitives -/

/-- Python string truthiness for an optional string field: both `None` (absent)
and the empty string are falsy, any other string is returned unchanged. -/
def truthy : Option String → Option String
  | none => none
  | some s => if s.isEmpty then none else some s

/-- Whitespace characters removed by Python `str.strip()` (the ASCII set,
which covers all inputs handled by this program). -/
def isPySpace (c : Char) : Bool :=
  c = ' ' || c = '\t' || c = '\n' || c = '\r' || c = '\x0b' || c = '\x0c'

/-- Python `str.strip()` on a character list: drop leading and trailing
whitespace. -/
def pyStripList (s : List Char) : List Char :=
  ((s.dropWhile isPySpace).reverse.dropWhile isPySpace).reverse

/-- Python `sep.join(parts)`. -/
def pyJoin (sep : String) : List String → String
  | [] => ""
  | [x] => x
  | x :: y :: rest => x ++ sep ++ pyJoin sep (y :: rest)

/-- Python `pattern in s` substring containment on character lists. -/
def containsSub : List Char → List Char → Bool
  | [], p => p.isEmpty
  | c :: t, p => p.isPrefixOf (c :: t) || containsSub t p

/-- Python `s.split(pattern)[0]`: the prefix of `s` strictly before the first
occurrence of `pattern`, or all of `s` when `pattern` does not occur. -/
def prefixBefore : List Char → List Char → List Char
  | [], _ => []
  | c :: t, p => if p.isPrefixOf (c :: t) then [] else c :: prefixBefore t p

/-! ### Event records -/

/-- An event record: the five optional string fields of one element of the API
response (`title`, `subtitle`, `date`, `host`, `location`); an absent key is
modelled as `none`. -/
structure EventRecord where
  title : Option String
  subtitle : Option String
  date : Option String
  host : Option String
  location : Option String
  deriving DecidableEq, Repr

/-- The event record with every field absent. -/
def emptyRecord : EventRecord := ⟨none, none, none, none, none⟩

/-! ### svg_generator.py -/

/-- The time patterns scanned by `parse_date_without_time`
(svg_generator.py line 29), in source order. -/
def timePatterns : List String := ["T", " at ", " @ "]

/-- svg_generator.py `parse_date_without_time` (lines 15-35): if any of the
time patterns occurs in the string, keep only the prefix before the first
occurrence of the first pattern (in list order) that occurs; in every
non-empty case the result is finally stripped of surrounding whitespace. -/
def parse_date_without_time (date_str : String) : String :=
  if date_str.isEmpty then date_str
  else
    match timePatterns.find? (fun p => containsSub date_str.data p.data) with
    | some p => String.mk (pyStripList (prefixBefore date_str.data p.data))
    | none => String.mk (pyStripList date_str.data)

/-- svg_generator.py `TEXT_COLOUR` (line 12). -/
def TEXT_COLOUR : String := "#FFFFFF"

/-- One element of the generated SVG document: a rectangle, an image
reference, or a text node with the styling attributes that
`generate_svg` actually sets (`none` models an omitted attribute). -/
inductive SvgElement where
  | rect (x y width height : ℚ) (fill : String)
  | image (href : String) (x y width height : ℚ) (preserveAspectRatio : String)
  | text (x y : ℚ) (content : String) (font_size : ℚ) (font_weight : Option String)
      (fill : String) (text_anchor : String) (dominant_baseline : Option String)
      (text_rendering : Option String)
  deriving DecidableEq, Repr

/-- The SVG document produced for one event. -/
structure SVG where
  width : ℚ
  height : ℚ
  viewBox : String
  elements : List SvgElement
  deriving DecidableEq, Repr

/-- One entry of the `content_elements` list built by `generate_svg`
(svg_generator.py lines 126-184): display text, font size, optional weight,
fill, and the running vertical offset it was appended at. -/
structure ContentBlock where
  text : String
  font_size : ℚ
  font_weight : Option String
  fill : String
  y_offset : ℚ
  deriving DecidableEq, Repr

/-- svg_generator.py `line_height_multiplier` (line 127): exactly 1.2. -/
def line_height_multiplier : ℚ := 6 / 5

/-- Append one content block at the current offset and advance the offset by
`font_size * line_height_multiplier`, exactly as each `if` branch of
svg_generator.py lines 130-184 does. -/
def pushBlock (acc : List ContentBlock × ℚ) (t : String) (fs : ℚ)
    (fw : Option String) : List ContentBlock × ℚ :=
  (acc.1 ++ [⟨t, fs, fw, TEXT_COLOUR, acc.2⟩], acc.2 + fs * line_height_multiplier)

/-- The `content_elements` list and final `current_y_offset` built by
svg_generator.py lines 126-184: one truthiness-guarded block per field, in the
fixed order title (72, bold), subtitle (48), host (40), date (40, with the
time-stripped text), location (40). -/
def contentState (event_data : EventRecord) : List ContentBlock × ℚ :=
  let acc0 : List ContentBlock × ℚ := ([], 0)
  let acc1 := match truthy event_data.title with
    | some title => pushBlock acc0 title 72 (some "bold")
    | none => acc0
  let acc2 := match truthy event_data.subtitle with
    | some subtitle => pushBlock acc1 subtitle 48 none
    | none => acc1
  let acc3 := match truthy event_data.host with
    | some host => pushBlock acc2 host 40 none
    | none => acc2
  let acc4 := match truthy event_data.date with
    | some date => pushBlock acc3 (parse_date_without_time date) 40 none
    | none => acc3
  match truthy event_data.location with
  | some location => pushBlock acc4 location 40 none
  | none => acc4

/-- svg_generator.py `generate_svg` (lines 38-213).  The filesystem check of
line 78 only decides whether a warning is logged, so the function is modelled
as taking the existence of the logo file as an extra boolean input and
returning the list of warnings alongside the document. -/
def generate_svg (event_data : EventRecord) (logo_path : String)
    (logoExists : Bool) : List String × SVG :=
  let warnings : List String :=
    if logoExists then []
    else ["Logo file not found: " ++ logo_path ++ ". Continuing without logo."]
  let width : ℚ := 1024
  let height : ℚ := 1024
  let logo_size : ℚ := 120
  let logo_padding : ℚ := 40
  let background := SvgElement.rect 0 0 width height "#000000"
  let logo := SvgElement.image logo_path logo_padding logo_padding
      logo_size logo_size "xMidYMid meet"
  let events_text := SvgElement.text (width / 2) (logo_padding + logo_size / 2)
      "Palaeo Events!" 64 (some "bold") TEXT_COLOUR "middle" (some "middle") none
  let st := contentState event_data
  let content_x := width / 2
  let total_content_height := st.2
  let content_start_y := (height - total_content_height) / 2
  let contentTexts := st.1.map fun b =>
    SvgElement.text content_x (content_start_y + b.y_offset) b.text b.font_size
      b.font_weight b.fill "middle" none (some "optimizeLegibility")
  (warnings, ⟨width, height, "0 0 1024 1024", [background, logo, events_text] ++ contentTexts⟩)

/-! ### generate.py: date format inference (a model of `datetime.strptime`
restricted to the seven formats listed at generate.py lines 248-256).
The model follows CPython `_strptime`: each directive compiles to a regular
expression alternation matched greedily and case-insensitively, the whole
string must be consumed, and the resulting numeric fields must form a valid
proleptic Gregorian date. -/

/-- Lower-case an ASCII letter (CPython `_strptime` matches names
case-insensitively by lower-casing both sides). -/
def toLowerCh (c : Char) : Char :=
  if 'A' ≤ c ∧ c ≤ 'Z' then Char.ofNat (c.toNat + 32) else c

/-- Case-insensitive prefix test on character lists. -/
def ciIsPrefixOf (p s : List Char) : Bool :=
  (p.map toLowerCh).isPrefixOf (s.map toLowerCh)

/-- Full month names, 1-based order, as in `calendar.month_name`. -/
def monthNamesFull : List String :=
  ["January", "February", "March", "April", "May", "June", "July",
   "August", "September", "October", "November", "December"]

/-- Abbreviated month names, 1-based order, as in `calendar.month_abbr`. -/
def monthNamesAbbr : List String :=
  ["Jan", "Feb", "Mar", "Apr", "May", "Jun", "Jul", "Aug", "Sep", "Oct", "Nov", "Dec"]

/-- Full weekday names in `calendar.day_name` order (Monday first), the order
used by both the `%A` directive and `date.weekday()`. -/
def dayNamesFull : List String :=
  ["Monday", "Tuesday", "Wednesday", "Thursday", "Friday", "Saturday", "Sunday"]

/-- Match one name of the list as a case-insensitive prefix of the input,
returning its 1-based index and the remaining input.  None of the name lists
above contains a name that is a prefix of another, so trying them in order is
equivalent to the longest-first alternation CPython builds. -/
def matchNameAux : Nat → List String → List Char → Option (Nat × List Char)
  | _, [], _ => none
  | i, n :: rest, s =>
    if ciIsPrefixOf n.data s then some (i, s.drop n.length)
    else matchNameAux (i + 1) rest s

/-- Match a name from a 1-based name list. -/
def matchName (names : List String) (s : List Char) : Option (Nat × List Char) :=
  matchNameAux 1 names s

/-- ASCII digit test. -/
def isDigitCh (c : Char) : Bool := '0' ≤ c && c ≤ '9'

/-- Numeric value of an ASCII digit. -/
def digitVal (c : Char) : Nat := c.toNat - 48

/-- Directive `%Y`: regex `\d\d\d\d`, exactly four digits. -/
def matchYear : List Char → Option (Nat × List Char)
  | a :: b :: c :: d :: rest =>
    if isDigitCh a && isDigitCh b && isDigitCh c && isDigitCh d then
      some (digitVal a * 1000 + digitVal b * 100 + digitVal c * 10 + digitVal d, rest)
    else none
  | _ => none

/-- Directive `%m`: regex `1[0-2]|0[1-9]|[1-9]`, alternatives tried in
order. -/
def matchMonth : List Char → Option (Nat × List Char)
  | [] => none
  | c :: rest =>
    if c = '1' then
      match rest with
      | c2 :: rest2 =>
        if '0' ≤ c2 && c2 ≤ '2' then some (10 + digitVal c2, rest2)
        else some (1, rest)
      | [] => some (1, [])
    else if c = '0' then
      match rest with
      | c2 :: rest2 =>
        if '1' ≤ c2 && c2 ≤ '9' then some (digitVal c2, rest2) else none
      | [] => none
    else if '2' ≤ c && c ≤ '9' then some (digitVal c, rest)
    else none

/-- Directive `%d`: regex `3[01]|[12]\d|0[1-9]|[1-9]`, alternatives tried in
order. -/
def matchDay : List Char → Option (Nat × List Char)
  | [] => none
  | c :: rest =>
    if c = '3' then
      match rest with
      | c2 :: rest2 =>
        if c2 = '0' || c2 = '1' then some (30 + digitVal c2, rest2)
        else some (3, rest)
      | [] => some (3, [])
    else if c = '1' || c = '2' then
      match rest with
      | c2 :: rest2 =>
        if isDigitCh c2 then some (digitVal c * 10 + digitVal c2, rest2)
        else some (digitVal c, rest)
      | [] => some (digitVal c, [])
    else if c = '0' then
      match rest with
      | c2 :: rest2 =>
        if '1' ≤ c2 && c2 ≤ '9' then some (digitVal c2, rest2) else none
      | [] => none
    else if '4' ≤ c && c ≤ '9' then some (digitVal c, rest)
    else none

/-- A whitespace character in the format matches one or more whitespace
characters of the input (`\s+`). -/
def matchWs : List Char → Option (List Char)
  | [] => none
  | c :: rest => if isPySpace c then some (rest.dropWhile isPySpace) else none

/-- A literal character of the format matches exactly itself. -/
def matchLit (c : Char) : List Char → Option (List Char)
  | [] => none
  | c2 :: rest => if c2 = c then some rest else none

/-- Gregorian leap year predicate. -/
def isLeapYear (y : Nat) : Bool :=
  y % 4 = 0 && (y % 100 ≠ 0 || y % 400 = 0)

/-- Days in a month of the proleptic Gregorian calendar. -/
def daysInMonth (y m : Nat) : Nat :=
  if m = 2 then (if isLeapYear y then 29 else 28)
  else if m = 4 || m = 6 || m = 9 || m = 11 then 30
  else 31

/-- A parsed calendar date. -/
structure PDate where
  year : Nat
  month : Nat
  day : Nat
  deriving DecidableEq, Repr

/-- Validation performed by the `datetime` constructor: `strptime` raises
`ValueError` (and the next format is tried) whenever the matched numbers do
not form a real date. -/
def mkDate (y m d : Nat) : Option PDate :=
  if 1 ≤ y ∧ y ≤ 9999 ∧ 1 ≤ m ∧ m ≤ 12 ∧ 1 ≤ d ∧ d ≤ daysInMonth y m then
    some ⟨y, m, d⟩
  else none

/-- Format `%Y-%m-%d` ("2024-12-05"). -/
def parseFmtISO (s : List Char) : Option PDate := do
  let (y, s) ← matchYear s
  let s ← matchLit '-' s
  let (m, s) ← matchMonth s
  let s ← matchLit '-' s
  let (d, s) ← matchDay s
  if s.isEmpty then mkDate y m d else none

/-- Format `%B %d, %Y` ("December 5, 2024"). -/
def parseFmtBdY (s : List Char) : Option PDate := do
  let (m, s) ← matchName monthNamesFull s
  let s ← matchWs s
  let (d, s) ← matchDay s
  let s ← matchLit ',' s
  let s ← matchWs s
  let (y, s) ← matchYear s
  if s.isEmpty then mkDate y m d else none

/-- Format `%b %d, %Y` ("Dec 5, 2024"). -/
def parseFmtAbbrdY (s : List Char) : Option PDate := do
  let (m, s) ← matchName monthNamesAbbr s
  let s ← matchWs s
  let (d, s) ← matchDay s
  let s ← matchLit ',' s
  let s ← matchWs s
  let (y, s) ← matchYear s
  if s.isEmpty then mkDate y m d else none

/-- Format `%m/%d/%Y` ("12/05/2024"). -/
def parseFmtMDY (s : List Char) : Option PDate := do
  let (m, s) ← matchMonth s
  let s ← matchLit '/' s
  let (d, s) ← matchDay s
  let s ← matchLit '/' s
  let (y, s) ← matchYear s
  if s.isEmpty then mkDate y m d else none

/-- Format `%d/%m/%Y` ("05/12/2024"). -/
def parseFmtDMY (s : List Char) : Option PDate := do
  let (d, s) ← matchDay s
  let s ← matchLit '/' s
  let (m, s) ← matchMonth s
  let s ← matchLit '/' s
  let (y, s) ← matchYear s
  if s.isEmpty then mkDate y m d else none

/-- Format `%A, %B %d, %Y` ("Wednesday, December 5, 2024"): the weekday name
is matched and then discarded — `strptime` never checks it against the
numeric date. -/
def parseFmtWBdY (s : List Char) : Option PDate := do
  let (_, s) ← matchName dayNamesFull s
  let s ← matchLit ',' s
  let s ← matchWs s
  let (m, s) ← matchName monthNamesFull s
  let s ← matchWs s
  let (d, s) ← matchDay s
  let s ← matchLit ',' s
  let s ← matchWs s
  let (y, s) ← matchYear s
  if s.isEmpty then mkDate y m d else none

/-- Format `%A, %b %d, %Y` ("Wednesday, Dec 5, 2024"). -/
def parseFmtWAbbrdY (s : List Char) : Option PDate := do
  let (_, s) ← matchName dayNamesFull s
  let s ← matchLit ',' s
  let s ← matchWs s
  let (m, s) ← matchName monthNamesAbbr s
  let s ← matchWs s
  let (d, s) ← matchDay s
  let s ← matchLit ',' s
  let s ← matchWs s
  let (y, s) ← matchYear s
  if s.isEmpty then mkDate y m d else none

/-- The `date_formats` list of generate.py lines 248-256, in source order. -/
def dateFormatList : List (List Char → Option PDate) :=
  [parseFmtISO, parseFmtBdY, parseFmtAbbrdY, parseFmtMDY, parseFmtDMY,
   parseFmtWBdY, parseFmtWAbbrdY]

/-- The `for fmt in date_formats: try ... break` loop of generate.py lines
258-264: the first successful parse wins. -/
def tryParseList : List (List Char → Option PDate) → List Char → Option PDate
  | [], _ => none
  | f :: rest, s =>
    match f s with
    | some d => some d
    | none => tryParseList rest s

/-- Days in all years strictly before year `y` of the proleptic Gregorian
calendar (as in CPython `datetime._days_before_year`). -/
def daysBeforeYear (y : Nat) : Nat :=
  let n := y - 1
  n * 365 + n / 4 - n / 100 + n / 400

/-- Days in the months of year `y` strictly before month `m`. -/
def daysBeforeMonth (y : Nat) : Nat → Nat
  | 0 => 0
  | Nat.succ m => if m = 0 then 0 else daysBeforeMonth y m + daysInMonth y m

/-- `date.toordinal()`: day number with 0001-01-01 as day 1. -/
def toOrdinal (d : PDate) : Nat :=
  daysBeforeYear d.year + daysBeforeMonth d.year d.month + d.day

/-- `date.weekday()`: 0 for Monday through 6 for Sunday (0001-01-01 is a
Monday in the proleptic Gregorian calendar). -/
def pyWeekday (d : PDate) : Nat := (toOrdinal d + 6) % 7

/-- `parsed_date.strftime("%A")`: the full weekday name. -/
def dayNameOf (d : PDate) : String := dayNamesFull.getD (pyWeekday d) ""

/-- `parsed_date.strftime("%B")`: the full month name. -/
def monthNameOf (m : Nat) : String := monthNamesFull.getD (m - 1) ""

/-- generate.py lines 242-271: from the raw date string produce the
`(day_name, formatted_date)` pair used for the digest line.  The weekday is
recomputed from the parsed numeric date; on failure the pair degrades to an
empty weekday and the verbatim input, and no exception escapes. -/
def inferDate (date_str : String) : String × String :=
  if date_str.isEmpty then ("", date_str)
  else
    match tryParseList dateFormatList date_str.data with
    | some d => (dayNameOf d, monthNameOf d.month ++ " " ++ Nat.repr d.day)
    | none => ("", date_str)

/-! ### generate.py: digest builder -/

/-- The attribution line of the digest footer (generate.py line 297). -/
def attributionLine : String :=
  "For more information: see https://albertapaleo.org/events/calendar"

/-- The hashtag line of the digest footer (generate.py line 299). -/
def hashtagLine : String :=
  "#palaeontology #paleontology #fossils #dinosaurs #events"

/-- One event's digest line (generate.py lines 240-292): the parts list is
built from the inferred date pair, the title defaulted to "Event" only when
the key is absent, and the optional location and host parts, then joined with
single spaces. -/
def eventLine (event_data : EventRecord) : String :=
  let date_str := event_data.date.getD ""
  let inferred := inferDate date_str
  let day_name := inferred.1
  let formatted_date := inferred.2
  let title := event_data.title.getD "Event"
  let location := event_data.location.getD ""
  let host := event_data.host.getD ""
  let firstPart :=
    if !day_name.isEmpty && !formatted_date.isEmpty then
      day_name ++ ", " ++ formatted_date ++ ": " ++ title
    else if !formatted_date.isEmpty then
      formatted_date ++ ": " ++ title
    else title
  let parts := [firstPart]
    ++ (if !location.isEmpty then ["@ " ++ location] else [])
    ++ (if !host.isEmpty then ["(" ++ host ++ ")"] else [])
  pyJoin " " parts

/-- generate.py `generate_content_txt` (lines 228-302): one line per event in
input order, then the fixed four footer lines, joined with newlines. -/
def generate_content_txt (events_data : List EventRecord) : String :=
  pyJoin "\n" (events_data.map eventLine ++ ["", attributionLine, "", hashtagLine])

/-! ### validators.py and the batch loop of generate.py `main` -/

/-- One element of the fetched API response: either a record (a dictionary,
whose relevant fields form an `EventRecord`) or a value of some other type,
remembered by its type name for the error message. -/
inductive ApiItem where
  | record (fields : EventRecord)
  | nonRecord (typeName : String)
  deriving DecidableEq, Repr

/-- A fetched API response: either a list of items or a value of some other
type. -/
inductive ApiResponse where
  | listOf (items : List ApiItem)
  | nonList (typeName : String)
  deriving DecidableEq, Repr

/-- The per-index loop of `validate_api_response` (validators.py lines
93-99): raise at the first element that is not a dictionary, otherwise keep
every event unchanged and in order. -/
def validateItems : Nat → List ApiItem → Except String (List EventRecord)
  | _, [] => .ok []
  | i, .record e :: rest =>
    match validateItems (i + 1) rest with
    | .ok es => .ok (e :: es)
    | .error msg => .error msg
  | i, .nonRecord t :: _ =>
    .error ("Event at index " ++ Nat.repr i ++ " must be a dictionary, got "
      ++ t ++ ". Please check the API response format.")

/-- validators.py `validate_api_response` (lines 69-102). -/
def validate_api_response : ApiResponse → Except String (List EventRecord)
  | .nonList t =>
    .error ("API response must be a list of events, got " ++ t
      ++ ". Please check the API endpoint and response format.")
  | .listOf items => validateItems 0 items

/-- The per-event rendering loop of generate.py `main` (lines 143-164): each
event's graphic is built inside a `try`, an exception (abstracted as the
`render` parameter returning `.error`) only skips that event's file, and the
loop continues with the next index.  The result lists the `(index, document)`
pairs that were written (file `event_{index:02d}.svg` for index `i`). -/
def processEventsFrom (render : EventRecord → Except String SVG) :
    Nat → List EventRecord → List (Nat × SVG)
  | _, [] => []
  | i, e :: rest =>
    match render e with
    | .ok doc => (i, doc) :: processEventsFrom render (i + 1) rest
    | .error _ => processEventsFrom render (i + 1) rest

/-- generate.py `main` lines 143-167 after successful validation: run the
per-event loop from index 0, then build `content.txt` from the full validated
list (the digest is generated whether or not individual graphics failed). -/
def runBatch (render : EventRecord → Except String SVG)
    (events : List EventRecord) : List (Nat × SVG) × String :=
  (processEventsFrom render 0 events, generate_content_txt events)

/-- generate.py `main` lines 124-167: validation of the fetched response runs
first and a validation error aborts the whole batch (`sys.exit(1)`) before any
rendering; otherwise the batch loop runs on the validated events. -/
def fetchAndProcess (render : EventRecord → Except String SVG)
    (resp : ApiResponse) : Except String (List (Nat × SVG) × String) :=
  match validate_api_response resp with
  | .error msg => .error msg
  | .ok events => .ok (runBatch render events)

/-! ### Specification-side descriptions (spec sections 3 and 4.2), used to
state the claims against the source-derived definitions above -/

/-- The five optional fields, as named by the spec. -/
inductive EventField where
  | title
  | subtitle
  | host
  | date
  | location
  deriving DecidableEq, Repr

/-- The fixed block order of spec section 3: title, subtitle, host, date,
location. -/
def fieldOrder : List EventField :=
  [.title, .subtitle, .host, .date, .location]

/-- The raw value of a field of a record. -/
def fieldRaw (e : EventRecord) : EventField → Option String
  | .title => e.title
  | .subtitle => e.subtitle
  | .host => e.host
  | .date => e.date
  | .location => e.location

/-- Presence per the spec: a field is present when it is non-absent and a
non-empty string. -/
def fieldPresent (e : EventRecord) (f : EventField) : Bool :=
  (truthy (fieldRaw e f)).isSome

/-- The present fields of a record, in the fixed order. -/
def presentFields (e : EventRecord) : List EventField :=
  fieldOrder.filter (fieldPresent e)

/-- The fixed font size per field (spec section 3): title 72, subtitle 48,
host 40, date 40, location 40. -/
def fieldFontSize : EventField → ℚ
  | .title => 72
  | .subtitle => 48
  | .host => 40
  | .date => 40
  | .location => 40

/-- The fixed font weight per field: bold only for the title. -/
def fieldFontWeight : EventField → Option String
  | .title => some "bold"
  | _ => none

/-- The display text of a present field: the raw value, except for the date
field which is rendered through `parse_date_without_time`. -/
def fieldDisplayText (e : EventRecord) : EventField → String
  | .date => parse_date_without_time ((fieldRaw e .date).getD "")
  | f => (fieldRaw e f).getD ""

/-- The content blocks the spec prescribes, started at running offset `y`:
one block per listed field, each at the cumulative offset of the sizes
before it. -/
def specBlocks (e : EventRecord) : ℚ → List EventField → List ContentBlock
  | _, [] => []
  | y, f :: rest =>
    ⟨fieldDisplayText e f, fieldFontSize f, fieldFontWeight f, TEXT_COLOUR, y⟩ ::
      specBlocks e (y + fieldFontSize f * line_height_multiplier) rest

/-- The total stacked height of spec section 4.2 step 3: the sum of
`font_size * 1.2` over the present fields. -/
def specTotal (e : EventRecord) : ℚ :=
  ((presentFields e).map (fun f => fieldFontSize f * line_height_multiplier)).sum

/-- The vertical start of the content group (spec section 4.2 step 4). -/
def specStartY (e : EventRecord) : ℚ := (1024 - specTotal e) / 2

/-- The content text elements the spec prescribes, from absolute start `y`:
each rendered at x = 512 with centered anchor and white fill. -/
def specTextsFrom (e : EventRecord) : ℚ → List EventField → List SvgElement
  | _, [] => []
  | y, f :: rest =>
    SvgElement.text 512 y (fieldDisplayText e f) (fieldFontSize f)
        (fieldFontWeight f) TEXT_COLOUR "middle" none (some "optimizeLegibility") ::
      specTextsFrom e (y + fieldFontSize f * line_height_multiplier) rest

/-- The full content-block text sequence of the Graphic Document per the
spec. -/
def specContentTexts (e : EventRecord) : List SvgElement :=
  specTextsFrom e (specStartY e) (presentFields e)

/-- The fixed background rectangle (spec section 3). -/
def backgroundRect : SvgElement := SvgElement.rect 0 0 1024 1024 "#000000"

/-- The fixed logo image (spec section 3). -/
def logoImage (logo_path : String) : SvgElement :=
  SvgElement.image logo_path 40 40 120 120 "xMidYMid meet"

/-- The fixed header text (spec section 3). -/
def headerText : SvgElement :=
  SvgElement.text 512 100 "Palaeo Events!" 64 (some "bold") TEXT_COLOUR
    "middle" (some "middle") none

/-- The per-event digest line as spec section 4.3 words it, by direct string
concatenation. -/
def specEventLine (e : EventRecord) : String :=
  let inferred := inferDate (e.date.getD "")
  let day_name := inferred.1
  let formatted_date := inferred.2
  let title := e.title.getD "Event"
  let base :=
    if day_name ≠ "" ∧ formatted_date ≠ "" then
      day_name ++ ", " ++ formatted_date ++ ": " ++ title
    else if formatted_date ≠ "" then formatted_date ++ ": " ++ title
    else title
  let base2 :=
    if e.location.getD "" ≠ "" then base ++ " @ " ++ e.location.getD "" else base
  if e.host.getD "" ≠ "" then base2 ++ " (" ++ e.host.getD "" ++ ")" else base2

/-! ### Layout lemmas -/

theorem truthy_getD {o : Option String} {v : String} (h : truthy o = some v) :
    o.getD "" = v := by
  cases o with
  | none => simp [truthy] at h
  | some s =>
    by_cases hs : s.isEmpty
    · simp [truthy, hs] at h
    · simp [truthy, hs] at h
      simp [h]


/-- The truthy projection of an optional string and the raw value agree once
defaulted with the empty string. -/
theorem truthy_getD_eq (o : Option String) : (truthy o).getD "" = o.getD "" := by
  cases o with
  | none => rfl
  | some s =>
    by_cases h : s.isEmpty
    · have hs : s = "" := (String.isEmpty_iff s).mp h
      subst hs
      decide
    · simp [truthy, h]

/-- Reduce one truthiness-guarded block append to an `if` on presence. -/
theorem matchOption_push (o : Option String) (acc : List ContentBlock × ℚ)
    (g : String → String) (fs : ℚ) (fw : Option String) :
    (match o with
     | some v => pushBlock acc (g v) fs fw
     | none => acc) =
    (if o.isSome then pushBlock acc (g (o.getD "")) fs fw else acc) := by
  cases o <;> rfl

/-- Fold the conditional block appends over a list of fields. -/
def foldFields (e : EventRecord) :
    List EventField → List ContentBlock × ℚ → List ContentBlock × ℚ
  | [], acc => acc
  | f :: rest, acc =>
    foldFields e rest
      (if fieldPresent e f then
        pushBlock acc (fieldDisplayText e f) (fieldFontSize f) (fieldFontWeight f)
      else acc)

theorem contentState_foldFields (e : EventRecord) :
    contentState e = foldFields e fieldOrder ([], 0) := by
  simp only [contentState, matchOption_push, truthy_getD_eq, foldFields, fieldOrder,
    fieldPresent, fieldRaw, fieldDisplayText, fieldFontSize, fieldFontWeight]

theorem foldFields_spec (e : EventRecord) :
    ∀ (l : List EventField) (bs : List ContentBlock) (y : ℚ),
      foldFields e l (bs, y) =
        (bs ++ specBlocks e y (l.filter (fieldPresent e)),
         y + ((l.filter (fieldPresent e)).map
            (fun f => fieldFontSize f * line_height_multiplier)).sum) := by
  intro l
  induction l with
  | nil => intro bs y; simp [foldFields, specBlocks]
  | cons f rest ih =>
    intro bs y
    by_cases h : fieldPresent e f
    · simp only [foldFields, h, if_true, pushBlock, List.filter_cons, ih]
      simp [specBlocks, add_assoc]
    · simp only [foldFields, h, if_false, List.filter_cons, ih]
      simp [h]

theorem contentState_eq (e : EventRecord) :
    contentState e = (specBlocks e 0 (presentFields e), specTotal e) := by
  rw [contentState_foldFields, foldFields_spec]
  simp [presentFields, specTotal]

theorem map_specBlocks (e : EventRecord) (sy : ℚ) :
    ∀ (l : List EventField) (y : ℚ),
      (specBlocks e y l).map (fun b =>
        SvgElement.text 512 (sy + b.y_offset) b.text b.font_size b.font_weight
          b.fill "middle" none (some "optimizeLegibility")) =
      specTextsFrom e (sy + y) l := by
  intro l
  induction l with
  | nil => intro y; simp [specBlocks, specTextsFrom]
  | cons f rest ih =>
    intro y
    simp only [specBlocks, specTextsFrom, List.map_cons, ih, add_assoc]

/-- The Graphic Document built by `generate_svg`, expressed through the
specification-side layout description. -/
theorem generate_svg_spec (e : EventRecord) (lp : String) (b : Bool) :
    (generate_svg e lp b).2 =
      ⟨1024, 1024, "0 0 1024 1024",
        [backgroundRect, logoImage lp, headerText] ++ specContentTexts e⟩ := by
  have h512 : (1024 : ℚ) / 2 = 512 := by norm_num
  have h100 : (40 : ℚ) + 120 / 2 = 100 := by norm_num
  have hmap := map_specBlocks e (specStartY e) (presentFields e) 0
  simp only [generate_svg, contentState_eq, h512, h100, backgroundRect,
    logoImage, headerText, specContentTexts, specStartY]
  rw [show ∀ q : ℚ, q + 0 = q from fun q => add_zero q] at hmap
  simp only [specStartY] at hmap
  rw [hmap]

theorem specTextsFrom_length (e : EventRecord) :
    ∀ (l : List EventField) (y : ℚ), (specTextsFrom e y l).length = l.length := by
  intro l
  induction l with
  | nil => intro y; rfl
  | cons f rest ih => intro y; simp [specTextsFrom, ih]

theorem fieldPresent_iff (e : EventRecord) (f : EventField) :
    fieldPresent e f = true ↔ ∃ s, fieldRaw e f = some s ∧ s ≠ "" := by
  unfold fieldPresent
  cases ho : fieldRaw e f with
  | none => simp [truthy]
  | some s =>
    by_cases hs : s.isEmpty
    · have hse : s = "" := (String.isEmpty_iff s).mp hs
      subst hse
      have h0 : "".isEmpty = true := rfl
      simp [truthy, h0]
    · have hne : s ≠ "" := fun hc => hs (by rw [hc]; exact rfl)
      simp [truthy, hs, hne]

theorem specTextsFrom_getD (e : EventRecord) :
    ∀ (l : List EventField) (y : ℚ) (i : Nat), i < l.length →
      (specTextsFrom e y l).getD i backgroundRect =
        SvgElement.text 512
          (y + ((l.take i).map (fun g => fieldFontSize g * line_height_multiplier)).sum)
          (fieldDisplayText e (l.getD i .title)) (fieldFontSize (l.getD i .title))
          (fieldFontWeight (l.getD i .title)) TEXT_COLOUR "middle" none
          (some "optimizeLegibility") := by
  intro l
  induction l with
  | nil => intro y i h; simp at h
  | cons f rest ih =>
    intro y i h
    cases i with
    | zero => simp [specTextsFrom]
    | succ j =>
      have hj : j < rest.length := by simpa using h
      simp only [specTextsFrom, List.getD_cons_succ, List.take_succ_cons,
        List.map_cons, List.sum_cons]
      rw [ih (y + fieldFontSize f * line_height_multiplier) j hj, add_assoc]

/-- C1: for every event record, the Graphic Document's elements are the fixed
background rectangle, logo image and header text first, followed by exactly
one content-block text per present field (non-absent, non-empty) among title,
subtitle, host, date, location, in that fixed order with the fixed font sizes
72, 48, 40, 40, 40 and bold weight only for the title (all encoded in
`specContentTexts` through `fieldFontSize` and `fieldFontWeight`); absent or
empty fields produce no block, and with zero present fields the document has
exactly the three fixed elements. -/
theorem c1_graphic_document_structure (e : EventRecord) (lp : String) (le : Bool) :
    ((generate_svg e lp le).2).elements =
        [backgroundRect, logoImage lp, headerText] ++ specContentTexts e ∧
    (specContentTexts e).length = (presentFields e).length ∧
    presentFields e = fieldOrder.filter (fieldPresent e) ∧
    (∀ f, f ∈ presentFields e ↔
      f ∈ fieldOrder ∧ ∃ s, fieldRaw e f = some s ∧ s ≠ "") ∧
    (presentFields e = [] →
      ((generate_svg e lp le).2).elements = [backgroundRect, logoImage lp, headerText]) := by
  have hels : ((generate_svg e lp le).2).elements =
      [backgroundRect, logoImage lp, headerText] ++ specContentTexts e := by
    rw [generate_svg_spec]
  refine ⟨hels, ?_, rfl, ?_, ?_⟩
  · exact specTextsFrom_length e (presentFields e) (specStartY e)
  · intro f
    rw [presentFields, List.mem_filter, fieldPresent_iff]
  · intro hnone
    rw [hels, specContentTexts, hnone]
    simp [specTextsFrom]

/-- Witness for C1 at a concrete record with zero present fields. -/
theorem c1_graphic_document_structure_witness :
    ((generate_svg ⟨none, some "", none, none, none⟩ "files/APS logo-black.svg" true).2).elements =
      [backgroundRect, logoImage "files/APS logo-black.svg", headerText] := by
  have h := c1_graphic_document_structure ⟨none, some "", none, none, none⟩
    "files/APS logo-black.svg" true
  exact h.2.2.2.2 (by decide)

/-- C2: the vertical offset of content block `i` is the sum of
`font_size * 1.2` over the blocks before it, the total height
`(contentState e).2` is that sum over all present fields, the group starts at
`(1024 - total) / 2`, block `i` sits at start plus its offset, and every
block is a text at x = 512 with centered anchor and white fill. -/
theorem c2_vertical_layout (e : EventRecord) (lp : String) (le : Bool)
    (i : Nat) (h : i < (presentFields e).length) :
    (contentState e).2 =
      ((presentFields e).map (fun g => fieldFontSize g * line_height_multiplier)).sum ∧
    ((generate_svg e lp le).2).elements.getD (i + 3) backgroundRect =
      SvgElement.text 512
        ((1024 - (contentState e).2) / 2 +
          (((presentFields e).take i).map
            (fun g => fieldFontSize g * line_height_multiplier)).sum)
        (fieldDisplayText e ((presentFields e).getD i .title))
        (fieldFontSize ((presentFields e).getD i .title))
        (fieldFontWeight ((presentFields e).getD i .title))
        TEXT_COLOUR "middle" none (some "optimizeLegibility") := by
  have htot : (contentState e).2 = specTotal e := by rw [contentState_eq]
  refine ⟨by rw [htot]; rfl, ?_⟩
  have hels : ((generate_svg e lp le).2).elements =
      [backgroundRect, logoImage lp, headerText] ++ specContentTexts e := by
    rw [generate_svg_spec]
  rw [hels, htot]
  have h3 : ([backgroundRect, logoImage lp, headerText] : List SvgElement).length = 3 := rfl
  rw [List.getD_append_right _ _ _ _ (by rw [h3]; omega)]
  rw [h3, Nat.add_sub_cancel]
  rw [specContentTexts, specTextsFrom_getD e (presentFields e) (specStartY e) i h,
    specStartY]

/-- Witness for C2 at a concrete record with two present fields. -/
theorem c2_vertical_layout_witness :
    ((generate_svg ⟨some "Fossil Talk", none, none, none, some "Calgary"⟩ "logo.svg" true).2).elements.getD
        (1 + 3) backgroundRect =
      SvgElement.text 512
        ((1024 - (contentState ⟨some "Fossil Talk", none, none, none, some "Calgary"⟩).2) / 2 +
          (((presentFields ⟨some "Fossil Talk", none, none, none, some "Calgary"⟩).take 1).map
            (fun g => fieldFontSize g * line_height_multiplier)).sum)
        (fieldDisplayText ⟨some "Fossil Talk", none, none, none, some "Calgary"⟩
          ((presentFields ⟨some "Fossil Talk", none, none, none, some "Calgary"⟩).getD 1 .title))
        (fieldFontSize ((presentFields ⟨some "Fossil Talk", none, none, none, some "Calgary"⟩).getD 1 .title))
        (fieldFontWeight ((presentFields ⟨some "Fossil Talk", none, none, none, some "Calgary"⟩).getD 1 .title))
        TEXT_COLOUR "middle" none (some "optimizeLegibility") :=
  (c2_vertical_layout ⟨some "Fossil Talk", none, none, none, some "Calgary"⟩
    "logo.svg" true 1 (by decide)).2

/-! ### Substring semantics for the time-stripping claim -/

theorem containsSub_iff (s p : List Char) :
    containsSub s p = true ↔ ∃ a b, s = a ++ p ++ b := by
  induction s with
  | nil =>
    simp only [containsSub, List.isEmpty_iff]
    constructor
    · intro h
      exact ⟨[], [], by simp [h]⟩
    · rintro ⟨a, b, h⟩
      have h2 := h.symm
      simp only [List.append_assoc, List.append_eq_nil] at h2
      exact h2.2.1
  | cons c t ih =>
    simp only [containsSub, Bool.or_eq_true, List.isPrefixOf_iff_prefix, ih]
    constructor
    · rintro (⟨b, hb⟩ | ⟨a, b, rfl⟩)
      · exact ⟨[], b, by simp [hb.symm]⟩
      · exact ⟨c :: a, b, rfl⟩
    · rintro ⟨a, b, h⟩
      cases a with
      | nil =>
        left
        exact ⟨b, by simpa using h.symm⟩
      | cons a0 a2 =>
        right
        simp only [List.cons_append, List.cons.injEq] at h
        exact ⟨a2, b, h.2⟩

theorem prefixBefore_occurrence (p : List Char) :
    ∀ s : List Char, containsSub s p = true →
      ∃ b, s = prefixBefore s p ++ p ++ b := by
  intro s
  induction s with
  | nil =>
    intro h
    simp only [containsSub, List.isEmpty_iff] at h
    exact ⟨[], by simp [prefixBefore, h]⟩
  | cons c t ih =>
    intro h
    by_cases hp : p.isPrefixOf (c :: t)
    · obtain ⟨b, hb⟩ := (List.isPrefixOf_iff_prefix.mp hp)
      exact ⟨b, by simp [prefixBefore, hp, hb.symm]⟩
    · have ht : containsSub t p = true := by
        simp only [containsSub, Bool.or_eq_true] at h
        rcases h with h | h
        · exact absurd h hp
        · exact h
      obtain ⟨b, hb⟩ := ih ht
      exact ⟨b, by simp [prefixBefore, hp, ← hb]⟩

theorem prefixBefore_minimal (p : List Char) :
    ∀ s a b : List Char, s = a ++ p ++ b →
      (prefixBefore s p).length ≤ a.length := by
  intro s
  induction s with
  | nil => intro a b h; simp [prefixBefore]
  | cons c t ih =>
    intro a b h
    by_cases hp : p.isPrefixOf (c :: t)
    · simp [prefixBefore, hp]
    · cases a with
      | nil =>
        exfalso
        exact hp (List.isPrefixOf_iff_prefix.mpr ⟨b, by simpa using h.symm⟩)
      | cons a0 a2 =>
        simp only [List.cons_append, List.cons.injEq] at h
        simp only [prefixBefore, hp, if_false, List.length_cons]
        exact Nat.succ_le_succ (ih a2 b h.2)

theorem isEmpty_eq_false {s : String} (h : s ≠ "") : s.isEmpty = false := by
  cases hb : s.isEmpty
  · rfl
  · exact absurd ((String.isEmpty_iff s).mp hb) h

theorem data_append_ne_empty {s : String} {a p b : List Char}
    (hp : p ≠ []) (h : s.data = a ++ p ++ b) : s.isEmpty = false := by
  apply isEmpty_eq_false
  intro hse
  subst hse
  have h2 : ([] : List Char) = a ++ p ++ b := h
  have h3 := h2.symm
  simp only [List.append_assoc, List.append_eq_nil] at h3
  exact hp h3.2.1

theorem not_containsSub {s : String} {p : String}
    (h : ¬∃ a b, s.data = a ++ p.data ++ b) :
    containsSub s.data p.data = false := by
  cases hb : containsSub s.data p.data
  · rfl
  · exact absurd ((containsSub_iff _ _).mp hb) h

/-- C4: `parse_date_without_time` returns the empty string on empty input; if
`"T"` occurs as a substring, it returns the whitespace-trimmed prefix before
the first occurrence of `"T"`; otherwise if `" at "` occurs, the trimmed
prefix before its first occurrence; otherwise if `" @ "` occurs, likewise;
and with none of the three patterns present it returns the input merely
trimmed.  The stated examples evaluate as claimed. -/
theorem c4_time_stripping (s : String) :
    (s = "" → parse_date_without_time s = "") ∧
    ((∃ a b, s.data = a ++ "T".data ++ b) →
      parse_date_without_time s =
          String.mk (pyStripList (prefixBefore s.data "T".data)) ∧
        (∃ b2, s.data = prefixBefore s.data "T".data ++ "T".data ++ b2) ∧
        ∀ a b2, s.data = a ++ "T".data ++ b2 →
          (prefixBefore s.data "T".data).length ≤ a.length) ∧
    (¬(∃ a b, s.data = a ++ "T".data ++ b) →
      (∃ a b, s.data = a ++ " at ".data ++ b) →
      parse_date_without_time s =
          String.mk (pyStripList (prefixBefore s.data " at ".data)) ∧
        (∃ b2, s.data = prefixBefore s.data " at ".data ++ " at ".data ++ b2) ∧
        ∀ a b2, s.data = a ++ " at ".data ++ b2 →
          (prefixBefore s.data " at ".data).length ≤ a.length) ∧
    (¬(∃ a b, s.data = a ++ "T".data ++ b) →
      ¬(∃ a b, s.data = a ++ " at ".data ++ b) →
      (∃ a b, s.data = a ++ " @ ".data ++ b) →
      parse_date_without_time s =
          String.mk (pyStripList (prefixBefore s.data " @ ".data)) ∧
        (∃ b2, s.data = prefixBefore s.data " @ ".data ++ " @ ".data ++ b2) ∧
        ∀ a b2, s.data = a ++ " @ ".data ++ b2 →
          (prefixBefore s.data " @ ".data).length ≤ a.length) ∧
    (¬(∃ a b, s.data = a ++ "T".data ++ b) →
      ¬(∃ a b, s.data = a ++ " at ".data ++ b) →
      ¬(∃ a b, s.data = a ++ " @ ".data ++ b) →
      parse_date_without_time s = String.mk (pyStripList s.data)) ∧
    parse_date_without_time "2024-12-05T18:00:00" = "2024-12-05" ∧
    parse_date_without_time "Jan 10 at 7pm" = "Jan 10" ∧
    parse_date_without_time "2024-12-05" = "2024-12-05" := by
  refine ⟨?_, ?_, ?_, ?_, ?_, by decide, by decide, by decide⟩
  · intro h
    subst h
    decide
  · intro hT
    obtain ⟨a, b, hab⟩ := hT
    have hne := data_append_ne_empty (by decide) hab
    have hTc : containsSub s.data "T".data = true :=
      (containsSub_iff _ _).mpr ⟨a, b, hab⟩
    refine ⟨?_, prefixBefore_occurrence _ _ hTc, fun a2 b2 h2 => prefixBefore_minimal _ _ a2 b2 h2⟩
    unfold parse_date_without_time
    simp [hne, timePatterns, List.find?, hTc]
  · intro hTn hAt
    obtain ⟨a, b, hab⟩ := hAt
    have hne := data_append_ne_empty (by decide) hab
    have hTf := not_containsSub hTn
    have hAc : containsSub s.data " at ".data = true :=
      (containsSub_iff _ _).mpr ⟨a, b, hab⟩
    refine ⟨?_, prefixBefore_occurrence _ _ hAc, fun a2 b2 h2 => prefixBefore_minimal _ _ a2 b2 h2⟩
    unfold parse_date_without_time
    simp [hne, timePatterns, List.find?, hTf, hAc]
  · intro hTn hAn hAmp
    obtain ⟨a, b, hab⟩ := hAmp
    have hne := data_append_ne_empty (by decide) hab
    have hTf := not_containsSub hTn
    have hAf := not_containsSub hAn
    have hMc : containsSub s.data " @ ".data = true :=
      (containsSub_iff _ _).mpr ⟨a, b, hab⟩
    refine ⟨?_, prefixBefore_occurrence _ _ hMc, fun a2 b2 h2 => prefixBefore_minimal _ _ a2 b2 h2⟩
    unfold parse_date_without_time
    simp [hne, timePatterns, List.find?, hTf, hAf, hMc]
  · intro hTn hAn hMn
    have hTf := not_containsSub hTn
    have hAf := not_containsSub hAn
    have hMf := not_containsSub hMn
    unfold parse_date_without_time
    by_cases hse : s.isEmpty
    · have h0 : s = "" := (String.isEmpty_iff s).mp hse
      subst h0
      decide
    · simp [hse, timePatterns, List.find?, hTf, hAf, hMf]

/-- Witness for C4: the pattern branches applied at concrete inputs. -/
theorem c4_time_stripping_witness :
    parse_date_without_time "2024-12-05T18:00:00" =
      String.mk (pyStripList (prefixBefore "2024-12-05T18:00:00".data "T".data)) := by
  have h := c4_time_stripping "2024-12-05T18:00:00"
  exact (h.2.1 ⟨"2024-12-05".data, "18:00:00".data, by decide⟩).1

/-- C9: `generate_svg` is deterministic — the Graphic Document depends only
on the event record and the logo path: the filesystem state (existence of the
logo file) does not influence the document, and repeating the call on
identical inputs yields a structurally identical result. -/
theorem c9_generate_svg_deterministic (e : EventRecord) (lp : String)
    (b1 b2 : Bool) :
    (generate_svg e lp b1).2 = (generate_svg e lp b2).2 ∧
    generate_svg e lp b1 = generate_svg e lp b1 :=
  ⟨rfl, rfl⟩

theorem specTextsFrom_mem (e : EventRecord) (f : EventField) :
    ∀ (l : List EventField) (y : ℚ), f ∈ l →
      ∃ y2, SvgElement.text 512 y2 (fieldDisplayText e f) (fieldFontSize f)
          (fieldFontWeight f) TEXT_COLOUR "middle" none
          (some "optimizeLegibility") ∈ specTextsFrom e y l := by
  intro l
  induction l with
  | nil => intro y h; simp at h
  | cons g rest ih =>
    intro y h
    rcases List.mem_cons.mp h with rfl | hmem
    · exact ⟨y, by simp [specTextsFrom]⟩
    · obtain ⟨y2, hy2⟩ := ih (y + fieldFontSize g * line_height_multiplier) hmem
      exact ⟨y2, by simp [specTextsFrom, hy2]⟩

/-- C10: for a non-empty date string whose first character is `T`, the
time-stripping returns the empty string, yet the Graphic Document still
contains a date content block with empty display text and font size 40, the
total stacked height still includes the 40 × 1.2 = 48 units of that block
(compared with the same record without a date), and the vertical start of
the group is shifted down by 24 units accordingly. -/
theorem c10_leading_t_empty_date_block (s : String) (hs : s.data.head? = some 'T')
    (e : EventRecord) (hd : e.date = some s) (lp : String) (b : Bool) :
    parse_date_without_time s = "" ∧
    (∃ y, SvgElement.text 512 y "" 40 none TEXT_COLOUR "middle" none
        (some "optimizeLegibility") ∈ ((generate_svg e lp b).2).elements) ∧
    (contentState e).2 =
      (contentState ⟨e.title, e.subtitle, none, e.host, e.location⟩).2 + 48 ∧
    (1024 - (contentState e).2) / 2 =
      (1024 - (contentState ⟨e.title, e.subtitle, none, e.host, e.location⟩).2) / 2 - 24 := by
  obtain ⟨c0, hc⟩ : ∃ c0, s.data = 'T' :: c0 := by
    cases hdt : s.data with
    | nil => rw [hdt] at hs; exact absurd hs (by simp)
    | cons a t =>
      rw [hdt] at hs
      simp only [List.head?_cons, Option.some.injEq] at hs
      subst hs
      exact ⟨t, rfl⟩
  have hne : s.isEmpty = false :=
    data_append_ne_empty (p := ['T']) (a := []) (b := c0) (by decide) (by simpa using hc)
  have hTc : containsSub s.data "T".data = true :=
    (containsSub_iff _ _).mpr ⟨[], c0, by simpa using hc⟩
  have hpb : prefixBefore s.data "T".data = [] := by
    rw [hc]
    simp [prefixBefore, List.isPrefixOf]
  have hp1 : parse_date_without_time s = "" := by
    unfold parse_date_without_time
    simp [hne, timePatterns, List.find?, hTc, hpb, pyStripList]
  have hdp : fieldPresent e .date = true := by
    simp [fieldPresent, fieldRaw, hd, truthy, hne]
  have hdp2 : fieldPresent ⟨e.title, e.subtitle, none, e.host, e.location⟩ .date = false := by
    simp [fieldPresent, fieldRaw, truthy]
  have ht1 : (contentState e).2 = specTotal e := by rw [contentState_eq]
  have ht2 : (contentState ⟨e.title, e.subtitle, none, e.host, e.location⟩).2 =
      specTotal ⟨e.title, e.subtitle, none, e.host, e.location⟩ := by rw [contentState_eq]
  have htot : specTotal e =
      specTotal ⟨e.title, e.subtitle, none, e.host, e.location⟩ + 48 := by
    have et : fieldPresent ⟨e.title, e.subtitle, none, e.host, e.location⟩ .title =
        fieldPresent e .title := rfl
    have es : fieldPresent ⟨e.title, e.subtitle, none, e.host, e.location⟩ .subtitle =
        fieldPresent e .subtitle := rfl
    have eh : fieldPresent ⟨e.title, e.subtitle, none, e.host, e.location⟩ .host =
        fieldPresent e .host := rfl
    have el : fieldPresent ⟨e.title, e.subtitle, none, e.host, e.location⟩ .location =
        fieldPresent e .location := rfl
    simp only [specTotal, presentFields, fieldOrder, List.filter_cons, List.filter_nil,
      et, es, eh, el, hdp, hdp2, if_true, Bool.false_eq_true, if_false]
    split_ifs <;> simp [fieldFontSize, line_height_multiplier] <;> ring
  refine ⟨hp1, ?_, ?_, ?_⟩
  · have hdatemem : EventField.date ∈ presentFields e := by
      rw [presentFields, List.mem_filter]
      exact ⟨by simp [fieldOrder], hdp⟩
    obtain ⟨y2, hy2⟩ := specTextsFrom_mem e .date (presentFields e) (specStartY e) hdatemem
    have htext : fieldDisplayText e .date = "" := by
      simp [fieldDisplayText, fieldRaw, hd, hp1]
    rw [htext] at hy2
    simp only [fieldFontSize, fieldFontWeight] at hy2
    rw [generate_svg_spec]
    exact ⟨y2, List.mem_append_right _ (by simpa [specContentTexts] using hy2)⟩
  · rw [ht1, ht2, htot]
  · rw [ht1, ht2, htot]
    ring

/-- Witness for C10 at a concrete weekday-first date string. -/
theorem c10_leading_t_empty_date_block_witness :
    parse_date_without_time "Tuesday, December 5, 2024" = "" ∧
    (∃ y, SvgElement.text 512 y "" 40 none TEXT_COLOUR "middle" none
        (some "optimizeLegibility") ∈
      ((generate_svg ⟨none, none, some "Tuesday, December 5, 2024", none, none⟩
          "logo.svg" true).2).elements) := by
  have h := c10_leading_t_empty_date_block "Tuesday, December 5, 2024" (by decide)
    ⟨none, none, some "Tuesday, December 5, 2024", none, none⟩ rfl "logo.svg" true
  exact ⟨h.1, h.2.1⟩

/-! ### Date inference claims -/

theorem tryParseList_eq_findSome (s : List Char) :
    ∀ l : List (List Char → Option PDate),
      tryParseList l s = l.findSome? (fun f => f s) := by
  intro l
  induction l with
  | nil => rfl
  | cons f rest ih =>
    simp only [tryParseList, List.findSome?_cons]
    cases f s <;> simp [ih]

/-- C3: for every non-empty date string, the inference result is obtained by
trying the seven formats in the fixed order of `dateFormatList` and taking
the first success; on success the weekday name is recomputed from the parsed
numeric date and the formatted date is the full month name followed by the
day without leading zero; when no format matches, the weekday is empty and
the formatted date is the verbatim input (and, the function being total, no
exception is raised).  The concrete cases show a stated (wrong) weekday being
ignored, the `%m/%d` before `%d/%m` order, and the silent fallback. -/
theorem c3_date_format_inference (s : String) (h : s ≠ "") :
    inferDate s =
      (match dateFormatList.findSome? (fun f => f s.data) with
       | some d => (dayNameOf d, monthNameOf d.month ++ " " ++ Nat.repr d.day)
       | none => ("", s)) ∧
    inferDate "Monday, December 5, 2024" = ("Thursday", "December 5") ∧
    inferDate "December 5, 2024" = ("Thursday", "December 5") ∧
    inferDate "05/12/2024" = ("Sunday", "May 12") ∧
    inferDate "sometime next week" = ("", "sometime next week") := by
  refine ⟨?_, by decide, by decide, by decide, by decide⟩
  unfold inferDate
  rw [isEmpty_eq_false h, tryParseList_eq_findSome]
  simp

/-- Witness for C3 at a concrete parseable input. -/
theorem c3_date_format_inference_witness :
    inferDate "2024-12-05" =
      (match dateFormatList.findSome? (fun f => f "2024-12-05".data) with
       | some d => (dayNameOf d, monthNameOf d.month ++ " " ++ Nat.repr d.day)
       | none => ("", "2024-12-05")) ∧
    inferDate "Monday, December 5, 2024" = ("Thursday", "December 5") := by
  have h := c3_date_format_inference "2024-12-05" (by decide)
  exact ⟨h.1, h.2.1⟩

/-! ### Digest claims -/

theorem isEmpty_eq_true {s : String} (h : s = "") : s.isEmpty = true :=
  (String.isEmpty_iff s).mpr h

theorem strFoldAt (x y : String) : x ++ (" " ++ ("@ " ++ y)) = x ++ (" @ " ++ y) := by
  apply String.ext
  simp [String.data_append]

theorem strFoldParen (x y : String) : x ++ (" " ++ ("(" ++ y)) = x ++ (" (" ++ y) := by
  apply String.ext
  simp [String.data_append]

theorem eventLine_eq_spec (e : EventRecord) : eventLine e = specEventLine e := by
  unfold eventLine specEventLine
  rcases hq : inferDate (e.date.getD "") with ⟨dn, fd⟩
  simp only [hq]
  by_cases h1 : dn = "" <;> by_cases h2 : fd = "" <;>
    by_cases h3 : e.location.getD "" = "" <;> by_cases h4 : e.host.getD "" = "" <;>
    simp [isEmpty_eq_false, isEmpty_eq_true, h1, h2, h3, h4, pyJoin,
      String.append_assoc, strFoldAt, strFoldParen]

/-- C5: the Digest Document is the per-event lines in input order — each
line per the `specEventLine` casing on day name, formatted date, title,
location and host — followed by a blank line, the attribution line, another
blank line and the fixed hashtag line, all joined with newlines; and the
stated concrete record produces exactly the stated line. -/
theorem c5_digest_document (events : List EventRecord) :
    generate_content_txt events =
      pyJoin "\n" (events.map specEventLine ++ ["", attributionLine, "", hashtagLine]) ∧
    specEventLine ⟨some "Talk", none, some "2024-12-05", some "Dr. X", some "Calgary"⟩ =
      "Thursday, December 5: Talk @ Calgary (Dr. X)" ∧
    attributionLine = "For more information: see https://albertapaleo.org/events/calendar" ∧
    hashtagLine = "#palaeontology #paleontology #fossils #dinosaurs #events" := by
  refine ⟨?_, by decide, rfl, rfl⟩
  unfold generate_content_txt
  rw [show eventLine = specEventLine from funext eventLine_eq_spec]

/-- C8 counterexample: for the record whose title is present but empty (and
no other fields), the digest line is the empty string, not the default
"Event" the claim asserts. -/
theorem c8_counterexample_empty_title :
    eventLine ⟨some "", none, none, none, none⟩ = "" ∧
    eventLine ⟨some "", none, none, none, none⟩ ≠ "Event" := by
  constructor <;> decide

/-- C8 amended: the digest title defaults to "Event" only when the title key
is absent; a title that is present but equal to the empty string is used
as-is, so the digest line for such a record (with no other fields) is the
empty string, not "Event". -/
theorem c8_amended_title_default (e : EventRecord) (hd : e.date = none)
    (hl : e.location = none) (hh : e.host = none) :
    (e.title = some "" → eventLine e = "") ∧
    (e.title = none → eventLine e = "Event") := by
  have hinf : inferDate "" = ("", "") := by decide
  have h0 : ("" : String).isEmpty = true := rfl
  constructor <;> intro ht <;>
    simp [eventLine, hd, hl, hh, ht, hinf, h0, pyJoin]

/-- Witness for the amended C8 at the concrete empty-title record. -/
theorem c8_amended_title_default_witness :
    eventLine ⟨some "", none, none, none, none⟩ = "" :=
  (c8_amended_title_default ⟨some "", none, none, none, none⟩ rfl rfl rfl).1 rfl

/-! ### Batch claims -/

theorem processEventsFrom_mem (render : EventRecord → Except String SVG) :
    ∀ (l : List EventRecord) (k j : Nat) (doc : SVG),
      ((j, doc) ∈ processEventsFrom render k l) ↔
        (k ≤ j ∧ j - k < l.length ∧
          render (l.getD (j - k) emptyRecord) = .ok doc) := by
  intro l
  induction l with
  | nil =>
    intro k j doc
    simp [processEventsFrom]
  | cons e rest ih =>
    intro k j doc
    cases hr : render e with
    | ok d0 =>
      simp only [processEventsFrom, hr, List.mem_cons, ih, List.length_cons]
      constructor
      · rintro (heq | ⟨hk, hlt, hok⟩)
        · have h1 : j = k := congrArg Prod.fst heq
          have h2 : doc = d0 := congrArg Prod.snd heq
          subst h1
          subst h2
          refine ⟨Nat.le_refl _, by omega, ?_⟩
          rw [Nat.sub_self]
          simpa [List.getD_cons_zero] using hr
        · refine ⟨by omega, by omega, ?_⟩
          have hidx : j - k = (j - (k + 1)) + 1 := by omega
          rw [hidx, List.getD_cons_succ]
          exact hok
      · rintro ⟨hk, hlt, hok⟩
        by_cases hje : j = k
        · subst hje
          rw [Nat.sub_self, List.getD_cons_zero] at hok
          rw [hr] at hok
          left
          rw [Except.ok.injEq] at hok
          rw [hok]
        · right
          have hidx : j - k = (j - (k + 1)) + 1 := by omega
          rw [hidx, List.getD_cons_succ] at hok
          exact ⟨by omega, by omega, hok⟩
    | error msg =>
      simp only [processEventsFrom, hr, ih, List.length_cons]
      constructor
      · rintro ⟨hk, hlt, hok⟩
        refine ⟨by omega, by omega, ?_⟩
        have hidx : j - k = (j - (k + 1)) + 1 := by omega
        rw [hidx, List.getD_cons_succ]
        exact hok
      · rintro ⟨hk, hlt, hok⟩
        by_cases hje : j = k
        · subst hje
          rw [Nat.sub_self, List.getD_cons_zero, hr] at hok
          exact absurd hok (by simp)
        · have hidx : j - k = (j - (k + 1)) + 1 := by omega
          rw [hidx, List.getD_cons_succ] at hok
          exact ⟨by omega, by omega, hok⟩

/-- C6: a rendering-time error while building one event's Graphic Document is
caught at the batch level — an index yields a written graphic exactly when
its renderer call succeeds, so only failing events' graphics are skipped and
all others are still produced; the Digest Document is built from the full
event list independently of any rendering failures, with one line per event
followed by the fixed footer. -/
theorem c6_batch_error_isolation (render : EventRecord → Except String SVG)
    (events : List EventRecord) (i : Nat) (h : i < events.length) :
    ((∃ doc, (i, doc) ∈ (runBatch render events).1) ↔
      ∃ doc, render (events.getD i emptyRecord) = .ok doc) ∧
    (runBatch render events).2 = generate_content_txt events ∧
    (∀ render2 : EventRecord → Except String SVG,
      (runBatch render events).2 = (runBatch render2 events).2) ∧
    generate_content_txt events =
      pyJoin "\n" (events.map eventLine ++ ["", attributionLine, "", hashtagLine]) := by
  refine ⟨?_, rfl, fun render2 => rfl, rfl⟩
  constructor
  · rintro ⟨doc, hm⟩
    have hmem := (processEventsFrom_mem render events 0 i doc).mp hm
    exact ⟨doc, by simpa using hmem.2.2⟩
  · rintro ⟨doc, hok⟩
    refine ⟨doc, (processEventsFrom_mem render events 0 i doc).mpr
      ⟨Nat.zero_le i, by simpa using h, by simpa using hok⟩⟩

/-- A renderer used by the batch witness: it fails exactly on the record
titled "BAD" and otherwise returns the event's Graphic Document. -/
def renderFailingBad (e : EventRecord) : Except String SVG :=
  if e.title = some "BAD" then Except.error "boom"
  else Except.ok (generate_svg e "logo.svg" true).2

/-- The two-event batch used by the batch witness: the second record fails. -/
def twoEventBatch : List EventRecord :=
  [⟨some "Good", none, none, none, none⟩, ⟨some "BAD", none, none, none, none⟩]

/-- Witness for C6: in a two-event batch whose second event fails to render,
index 0 still yields a graphic and index 1 yields none, while the digest is
that of the full batch. -/
theorem c6_batch_error_isolation_witness :
    ((∃ doc, (0, doc) ∈ (runBatch renderFailingBad twoEventBatch).1) ↔
      ∃ doc, renderFailingBad (twoEventBatch.getD 0 emptyRecord) = .ok doc) ∧
    ((∃ doc, (1, doc) ∈ (runBatch renderFailingBad twoEventBatch).1) ↔
      ∃ doc, renderFailingBad (twoEventBatch.getD 1 emptyRecord) = .ok doc) ∧
    (runBatch renderFailingBad twoEventBatch).2 =
      generate_content_txt twoEventBatch :=
  ⟨(c6_batch_error_isolation renderFailingBad twoEventBatch 0 (by decide)).1,
   (c6_batch_error_isolation renderFailingBad twoEventBatch 1 (by decide)).1,
   (c6_batch_error_isolation renderFailingBad twoEventBatch 1 (by decide)).2.1⟩

theorem validateItems_map_record :
    ∀ (es : List EventRecord) (k : Nat),
      validateItems k (es.map ApiItem.record) = .ok es := by
  intro es
  induction es with
  | nil => intro k; rfl
  | cons e rest ih =>
    intro k
    simp only [List.map_cons, validateItems, ih]

theorem validateItems_nonRecord_error :
    ∀ (pre : List ApiItem) (t : String) (post : List ApiItem) (k : Nat),
      ∃ msg, validateItems k (pre ++ ApiItem.nonRecord t :: post) = .error msg := by
  intro pre
  induction pre with
  | nil =>
    intro t post k
    exact ⟨_, rfl⟩
  | cons it pre2 ih =>
    intro t post k
    cases it with
    | record e =>
      obtain ⟨msg, hmsg⟩ := ih t post (k + 1)
      exact ⟨msg, by simp [validateItems, hmsg]⟩
    | nonRecord t2 =>
      exact ⟨_, rfl⟩

/-- C7: a fetch result that is not a list makes `validate_api_response`
raise, and the whole batch fails before any rendering (the pipeline result is
the error, with no graphics and no digest); the same holds when any element
of the list is not a record; and a list consisting solely of records
validates to exactly that list of events, unchanged and in order. -/
theorem c7_validate_api_response :
    (∀ t, ∃ msg, validate_api_response (.nonList t) = .error msg ∧
      ∀ render, fetchAndProcess render (.nonList t) = .error msg) ∧
    (∀ (pre post : List ApiItem) (t : String),
      ∃ msg, validate_api_response (.listOf (pre ++ ApiItem.nonRecord t :: post)) = .error msg ∧
        ∀ render, fetchAndProcess render (.listOf (pre ++ ApiItem.nonRecord t :: post)) = .error msg) ∧
    (∀ es : List EventRecord,
      validate_api_response (.listOf (es.map ApiItem.record)) = .ok es ∧
      ∀ render, fetchAndProcess render (.listOf (es.map ApiItem.record)) =
        .ok (runBatch render es)) := by
  refine ⟨?_, ?_, ?_⟩
  · intro t
    exact ⟨_, rfl, fun render => rfl⟩
  · intro pre post t
    obtain ⟨msg, hmsg⟩ := validateItems_nonRecord_error pre t post 0
    refine ⟨msg, hmsg, fun render => ?_⟩
    simp [fetchAndProcess, validate_api_response, hmsg]
  · intro es
    have hok : validate_api_response (.listOf (es.map ApiItem.record)) = .ok es :=
      validateItems_map_record es 0
    exact ⟨hok, fun render => by simp [fetchAndProcess, hok]⟩

/-- Witness for C7 at concrete responses. -/
theorem c7_validate_api_response_witness :
    (∃ msg, validate_api_response (.nonList "dict") = .error msg) ∧
    (∃ msg, validate_api_response
      (.listOf [ApiItem.record emptyRecord, ApiItem.nonRecord "str"]) = .error msg) ∧
    validate_api_response (.listOf [ApiItem.record emptyRecord]) = .ok [emptyRecord] := by
  have h := c7_validate_api_response
  refine ⟨?_, ?_, ?_⟩
  · obtain ⟨msg, hmsg, _⟩ := h.1 "dict"
    exact ⟨msg, hmsg⟩
  · obtain ⟨msg, hmsg, _⟩ := h.2.1 [ApiItem.record emptyRecord] [] "str"
    exact ⟨msg, hmsg⟩
  · exact (h.2.2 [emptyRecord]).1
